import Mathlib

/-!
Shallow embedding of `src/services/retail_api.py` (apt-totem-backend).

The module fetches catalog data from an external retail HTTP API and mirrors
it into a local relational store (SQLAlchemy session over the entities
`Categoria`, `Producto`, `ProductoVariante`), with search and recommendation
helpers on top.

Modelling choices, all taken from the source:
  * The HTTP transport is an environment `Env`: for each endpoint it yields
    either a transport/HTTP-status error (`HErr`, the `requests.RequestException`
    family that every fetch method catches) or a parsed JSON payload.
  * Fetched product payloads are dictionaries of unknown shape; a `RawRecord`
    records which of the five keys used by the module are present.  Accessing
    a missing key (`product_data[...]` in Python) raises `KeyError`, modelled
    by the `Except PyError` monad.  Fetched category payloads are lists whose
    elements may fail to be strings (`.title()` on a non-string raises
    `AttributeError`), modelled as `Option String` elements.
  * The SQLAlchemy session is modelled as an explicit `DB` state.  The session
    default `autoflush=True` means pending `db.add` rows are visible to later
    queries in the same sync run, so `add` appends immediately; `flush`
    assigns the generated id, which the model assigns at `add` time (the ids
    are only read after a `flush` in the source, so this is observationally
    the same).  `commit` has no further observable effect in a single-caller
    model.  Store operations themselves always succeed in the model.
  * Python string methods `.title()` and `.lower()` are modelled with their
    ASCII semantics (all concrete data in the development is ASCII).
  * Prices are copied verbatim and never computed with; they are modelled as
    rationals.
-/

namespace RetailAPI

/-- Python `str.title()` on a char list: an alphabetic char is uppercased when
the previous char is not alphabetic and lowercased otherwise; the flag carries
whether the previous char was alphabetic. -/
def pyTitleAux : Bool → List Char → List Char
  | _, [] => []
  | prev, c :: cs =>
    if c.isAlpha then
      (if prev then c.toLower else c.toUpper) :: pyTitleAux true cs
    else
      c :: pyTitleAux false cs

/-- Python `str.title()` (ASCII semantics). -/
def pyTitle (s : String) : String := ⟨pyTitleAux false s.data⟩

/-- Python `str.lower()` (ASCII semantics). -/
def pyLower (s : String) : String := ⟨s.data.map Char.toLower⟩

/-- Boolean list-segment test used to model the Python substring operator. -/
def isPre : List Char → List Char → Bool
  | [], _ => true
  | _ :: _, [] => false
  | a :: as, b :: bs => a == b && isPre as bs

/-- Whether `needle` occurs contiguously in `hay`. -/
def hasSub (needle : List Char) : List Char → Bool
  | [] => isPre needle []
  | c :: cs => isPre needle (c :: cs) || hasSub needle cs

/-- Python `needle in hay` on strings. -/
def strIn (needle hay : String) : Bool := hasSub needle.data hay.data

/-- Transport or HTTP-status error of the underlying GET
(`requests.RequestException`). -/
inductive HErr where
  | requestException
deriving DecidableEq

/-- Python exception raised by the sync code itself when a fetched payload
does not have the expected shape. -/
inductive PyError where
  | keyError (key : String)
  | attributeError
deriving DecidableEq

/-- A fetched product dictionary: which of the five keys the module reads are
present, and their values when present. -/
structure RawRecord where
  id : Option Int
  title : Option String
  category : Option String
  price : Option Rat
  image : Option String
deriving DecidableEq

/-- Python dictionary access `d[key]`: `KeyError` when the key is absent. -/
def getKey {α : Type} (key : String) : Option α → Except PyError α
  | some v => .ok v
  | none => .error (.keyError key)

/-- Python `x.title()` on a fetched category element: `AttributeError` when
the element is not a string. -/
def asStr : Option String → Except PyError String
  | some s => .ok s
  | none => .error .attributeError

/-- Python dict truthiness of a fetched record: falsy iff no key is present. -/
def rawTruthy (r : RawRecord) : Bool :=
  r.id.isSome || r.title.isSome || r.category.isSome || r.price.isSome || r.image.isSome

/-- Row of the `Categoria` table. -/
structure Categoria where
  id_categoria : Nat
  nombre : String
deriving DecidableEq

/-- Row of the `Producto` table. -/
structure Producto where
  id_producto : Nat
  nombre : String
  id_categoria : Nat
  marca : String
deriving DecidableEq

/-- Row of the `ProductoVariante` table. -/
structure ProductoVariante where
  id_producto : Nat
  sku : String
  talla : String
  color : String
  precio : Rat
  image_url : String
deriving DecidableEq

/-- The local relational store: the three tables touched by the module plus
the id generators. -/
structure DB where
  categorias : List Categoria
  productos : List Producto
  variantes : List ProductoVariante
  nextCatId : Nat
  nextProdId : Nat
deriving DecidableEq

def emptyDB : DB := ⟨[], [], [], 1, 1⟩

def catNames (db : DB) : List String := db.categorias.map Categoria.nombre

def prodNames (db : DB) : List String := db.productos.map Producto.nombre

/-- `db.query(Categoria).filter(Categoria.nombre == nm).first()`. -/
def findCat (db : DB) (nm : String) : Option Categoria :=
  db.categorias.find? (fun c => c.nombre == nm)

/-- `db.query(Producto).filter(Producto.nombre == nm).first()`. -/
def findProd (db : DB) (nm : String) : Option Producto :=
  db.productos.find? (fun p => p.nombre == nm)

/-- `db.add(Categoria(nombre=nm))` followed by the flush that assigns the
generated id; returns the id together with the new state. -/
def addCat (db : DB) (nm : String) : Nat × DB :=
  (db.nextCatId,
   { db with categorias := db.categorias ++ [⟨db.nextCatId, nm⟩],
             nextCatId := db.nextCatId + 1 })

/-- `db.add(Producto(nombre=..., id_categoria=..., marca=...))` plus flush. -/
def addProd (db : DB) (nombre : String) (id_categoria : Nat) (marca : String) : DB :=
  { db with productos := db.productos ++ [⟨db.nextProdId, nombre, id_categoria, marca⟩],
            nextProdId := db.nextProdId + 1 }

/-- `db.add(ProductoVariante(...))`. -/
def addVar (db : DB) (v : ProductoVariante) : DB :=
  { db with variantes := db.variantes ++ [v] }

/-- Outcome of each external endpoint: the transport layer either signals an
error or delivers the parsed JSON payload of the response. -/
structure Env where
  categories : Except HErr (List (Option String))
  products : Nat → Except HErr (List RawRecord)
  productById : Int → Except HErr (Option RawRecord)
  productsByCategory : String → Except HErr (List RawRecord)

/-- `RetailAPIService.get_categories`: GET `/products/categories`; on
`RequestException` log and return `[]`. -/
def get_categories (env : Env) : List (Option String) :=
  match env.categories with
  | .error _ => []
  | .ok l => l

/-- `RetailAPIService.get_products`: GET `/products?limit={limit}`; on
`RequestException` log and return `[]`. -/
def get_products (env : Env) (limit : Nat) : List RawRecord :=
  match env.products limit with
  | .error _ => []
  | .ok l => l

/-- `RetailAPIService.get_product_by_id`: GET `/products/{id}`; on
`RequestException` log and return `None`. -/
def get_product_by_id (env : Env) (product_id : Int) : Option RawRecord :=
  match env.productById product_id with
  | .error _ => none
  | .ok v => v

/-- `RetailAPIService.get_products_by_category`: GET
`/products/category/{category}`; on `RequestException` log and return `[]`. -/
def get_products_by_category (env : Env) (category : String) : List RawRecord :=
  match env.productsByCategory category with
  | .error _ => []
  | .ok l => l

/-- The loop body sequence of `sync_categories_to_db` over the fetched list,
carrying `created_count` and the session state. -/
def syncCatsFrom : List (Option String) → Nat → DB → Except PyError (Nat × DB)
  | [], n, db => .ok (n, db)
  | item :: rest, n, db => do
      let cat_name ← asStr item
      let normalized := pyTitle cat_name
      match findCat db normalized with
      | some _ => syncCatsFrom rest n db
      | none => syncCatsFrom rest (n + 1) (addCat db normalized).2

/-- `RetailAPIService.sync_categories_to_db`. -/
def sync_categories_to_db (env : Env) (db : DB) : Except PyError (Nat × DB) :=
  syncCatsFrom (get_categories env) 0 db

/-- Lines 87-94 of the source: look the category up by title-cased name, or
create it and flush to obtain its id. -/
def resolveCat (db : DB) (normalized : String) : Nat × DB :=
  match findCat db normalized with
  | some c => (c.id_categoria, db)
  | none => addCat db normalized

/-- One iteration of the `sync_products_to_db` loop on one fetched record:
resolve the category, check product existence by exact title, create the
product and its single variant when absent.  Returns whether a product was
created. -/
def prodStep (db : DB) (product_data : RawRecord) : Except PyError (Bool × DB) := do
  let catName ← getKey "category" product_data.category
  let rc := resolveCat db (pyTitle catName)
  let title ← getKey "title" product_data.title
  match findProd rc.2 title with
  | some _ => .ok (false, rc.2)
  | none => do
      let pid := rc.2.nextProdId
      let db2 := addProd rc.2 title rc.1 "API Externa"
      let extId ← getKey "id" product_data.id
      let price ← getKey "price" product_data.price
      let image ← getKey "image" product_data.image
      .ok (true, addVar db2 ⟨pid, "API-" ++ toString extId, "M", "N/A", price, image⟩)

/-- The loop of `sync_products_to_db` over the fetched list. -/
def syncProdsFrom : List RawRecord → Nat → DB → Except PyError (Nat × DB)
  | [], n, db => .ok (n, db)
  | r :: rest, n, db => do
      let step ← prodStep db r
      syncProdsFrom rest (if step.1 then n + 1 else n) step.2

/-- `RetailAPIService.sync_products_to_db`. -/
def sync_products_to_db (env : Env) (limit : Nat) (db : DB) : Except PyError (Nat × DB) :=
  syncProdsFrom (get_products env limit) 0 db

/-- The list comprehension of `search_products`: keep the records whose title
contains the query case-insensitively; `p[...]` may raise. -/
def filterTitles (query : String) : List RawRecord → Except PyError (List RawRecord)
  | [] => .ok []
  | p :: rest => do
      let t ← getKey "title" p.title
      let rest2 ← filterTitles query rest
      if strIn (pyLower query) (pyLower t) then .ok (p :: rest2) else .ok rest2

/-- `RetailAPIService.search_products`: pool by category when the category
argument is truthy (a non-empty string), else the first 100 products; filter
by case-insensitive title substring; cap at 20; any exception inside the
`try` is caught and yields `[]`. -/
def search_products (env : Env) (query : String) (category : Option String) :
    List RawRecord :=
  let pool :=
    match category with
    | some c => if c == "" then get_products env 100 else get_products_by_category env c
    | none => get_products env 100
  match filterTitles query pool with
  | .ok filtered => filtered.take 20
  | .error _ => []

/-- The list comprehension of `get_product_recommendations`: drop records
whose id equals the given product id; `p[...]` may raise. -/
def filterOutId (product_id : Int) : List RawRecord → Except PyError (List RawRecord)
  | [] => .ok []
  | p :: rest => do
      let i ← getKey "id" p.id
      let rest2 ← filterOutId product_id rest
      if i != product_id then .ok (p :: rest2) else .ok rest2

/-- `RetailAPIService.get_product_recommendations`: fetch the base product;
when it is absent or falsy return `[]`; otherwise fetch its category pool,
drop the base product by id and take `limit`; exceptions inside the `try`
are caught and yield `[]`. -/
def get_product_recommendations (env : Env) (product_id : Int) (limit : Nat) :
    List RawRecord :=
  match get_product_by_id env product_id with
  | none => []
  | some base =>
    if rawTruthy base then
      match (do
        let cat ← getKey "category" base.category
        filterOutId product_id (get_products_by_category env cat)) with
      | .ok recommendations => recommendations.take limit
      | .error _ => []
    else []

/-- `RetailAPIClient.sync_all_data`: categories first, then products. -/
def sync_all_data (env : Env) (db : DB) (products_limit : Nat) :
    Except PyError ((Nat × Nat) × DB) := do
  let c ← sync_categories_to_db env db
  let p ← sync_products_to_db env products_limit c.2
  .ok ((c.1, p.1), p.2)

/-- The loop of `search_and_sync` over `results[:5]`: each iteration calls
`sync_products_to_db(db, 1)`, ignoring the loop variable. -/
def syncLoop (env : Env) : List RawRecord → DB → Except PyError DB
  | [], db => .ok db
  | _ :: rest, db => do
      let step ← sync_products_to_db env 1 db
      syncLoop env rest step.2

/-- `RetailAPIClient.search_and_sync`. -/
def search_and_sync (env : Env) (db : DB) (query : String) (category : Option String) :
    Except PyError (List RawRecord × DB) := do
  let results := search_products env query category
  let db2 ← syncLoop env (results.take 5) db
  .ok (results, db2)

/-- First-seen scan: of the incoming names, keep the first occurrence of each
name not already present.  This characterises which rows a sync run creates. -/
def newFresh (present : List String) : List String → List String
  | [] => []
  | t :: rest =>
    if t ∈ present then newFresh present rest
    else t :: newFresh (t :: present) rest

/-- Iterated `addCat`, the net effect of a category sync run on the store. -/
def catAppend : DB → List String → DB
  | db, [] => db
  | db, t :: ts => catAppend (addCat db t).2 ts

/-- A well-formed fetched product record: every key the module reads is
present (the shape the external API documents). -/
structure Rec where
  id : Int
  title : String
  category : String
  price : Rat
  image : String
deriving DecidableEq

/-- The dictionary a well-formed record denotes. -/
def Rec.toRaw (r : Rec) : RawRecord :=
  ⟨some r.id, some r.title, some r.category, some r.price, some r.image⟩

/-- The value `prodStep` computes on a well-formed record, with the raw
dictionary accesses already resolved (see `prodStep_toRaw`). -/
def prodStepT (db : DB) (r : Rec) : Bool × DB :=
  match findProd (resolveCat db (pyTitle r.category)).2 r.title with
  | some _ => (false, (resolveCat db (pyTitle r.category)).2)
  | none =>
    (true,
     addVar
       (addProd (resolveCat db (pyTitle r.category)).2 r.title
         (resolveCat db (pyTitle r.category)).1 "API Externa")
       ⟨(resolveCat db (pyTitle r.category)).2.nextProdId,
        "API-" ++ toString r.id, "M", "N/A", r.price, r.image⟩)

/-- The product-sync loop over well-formed records (see
`syncProdsFrom_toRaw`). -/
def syncProdsT : List Rec → Nat → DB → Nat × DB
  | [], n, db => (n, db)
  | r :: rest, n, db =>
    syncProdsT rest (if (prodStepT db r).1 then n + 1 else n) (prodStepT db r).2

/-- Iterating `sync_products_to_db` with limit 1 a fixed number of times, the
net store effect of the `search_and_sync` loop. -/
def syncNTimes (env : Env) : Nat → DB → Except PyError DB
  | 0, db => .ok db
  | k + 1, db => do
      let step ← sync_products_to_db env 1 db
      syncNTimes env k step.2

/-- Referential integrity: every product row references an existing category
row. -/
def refOK (db : DB) : Prop :=
  ∀ p ∈ db.productos, ∃ c ∈ db.categorias, c.id_categoria = p.id_categoria

/-! ### Concrete data for witnesses and counterexamples -/

def recShirt : Rec := ⟨1, "shirt", "mens clothing", 1, "u1"⟩

def recLamp : Rec := ⟨2, "Lamp", "home deco", 3, "u2"⟩

def recZShirt : Rec := ⟨7, "zzz shirt", "mens clothing", 2, "u3"⟩

def recBase : Rec := ⟨5, "Base", "mens clothing", 4, "u5"⟩

/-- The record `recShirt` with changed price and image but the same title and
category. -/
def recShirtB : Rec := ⟨1, "shirt", "mens clothing", 99, "u9"⟩

def envW5b : Env :=
  ⟨.ok [], fun _ => .ok [recShirtB.toRaw, recLamp.toRaw],
   fun _ => .ok none, fun _ => .ok []⟩

/-- A fetched dictionary with none of the expected keys. -/
def badRecord : RawRecord := ⟨none, none, none, none, none⟩

def envW4 : Env :=
  ⟨.ok [some "mens clothing", some "mens clothing"],
   fun _ => .ok [], fun _ => .ok none, fun _ => .ok []⟩

def envErr : Env :=
  ⟨.error .requestException, fun _ => .error .requestException,
   fun _ => .error .requestException, fun _ => .error .requestException⟩

/-- A healthy environment used by several witnesses. -/
def envW : Env :=
  ⟨.ok [some "electronics"],
   fun _ => .ok [recShirt.toRaw, recLamp.toRaw],
   fun i => if i == 5 then .ok (some recBase.toRaw) else .ok none,
   fun c => if c == "mens clothing" then .ok [recShirt.toRaw, recZShirt.toRaw] else .ok []⟩

def envC1 : Env :=
  ⟨.ok [], fun _ => .ok [recShirt.toRaw], fun _ => .ok none, fun _ => .ok []⟩

def envC2 : Env :=
  ⟨.ok [], fun _ => .ok [recLamp.toRaw], fun _ => .ok none,
   fun c => if c == "x" then .ok [recZShirt.toRaw] else .ok []⟩

def envC3 : Env :=
  ⟨.ok [], fun _ => .ok [badRecord], fun _ => .ok none, fun _ => .ok []⟩

def envC9 : Env :=
  ⟨.ok [], fun _ => .ok [], fun _ => .ok none,
   fun c => if c == "" then .ok [recShirt.toRaw] else .ok []⟩

/-! ### Properties of the first-seen scan -/

lemma newFresh_cons_of_mem {t : String} {p : List String} (l : List String)
    (hp : t ∈ p) : newFresh p (t :: l) = newFresh p l := by
  simp [newFresh, hp]

lemma newFresh_cons_of_not_mem {t : String} {p : List String} (l : List String)
    (hp : t ∉ p) : newFresh p (t :: l) = t :: newFresh (t :: p) l := by
  simp [newFresh, hp]

lemma newFresh_congr : ∀ (l : List String) {p q : List String},
    (∀ t, t ∈ p ↔ t ∈ q) → newFresh p l = newFresh q l
  | [], _, _, _ => rfl
  | t :: rest, p, q, h => by
    by_cases hp : t ∈ p
    · rw [newFresh_cons_of_mem rest hp, newFresh_cons_of_mem rest ((h t).1 hp)]
      exact newFresh_congr rest h
    · rw [newFresh_cons_of_not_mem rest hp,
          newFresh_cons_of_not_mem rest (fun hq => hp ((h t).2 hq))]
      refine congrArg _ (newFresh_congr rest fun x => ?_)
      simp only [List.mem_cons, h x]

lemma newFresh_mem : ∀ (l p : List String) (t : String),
    t ∈ newFresh p l ↔ t ∉ p ∧ t ∈ l := by
  intro l
  induction l with
  | nil => simp [newFresh]
  | cons a rest ih =>
    intro p t
    by_cases ha : a ∈ p
    · rw [newFresh_cons_of_mem rest ha, ih]
      constructor
      · rintro ⟨hnp, hr⟩
        exact ⟨hnp, List.mem_cons_of_mem _ hr⟩
      · rintro ⟨hnp, hmem⟩
        rcases List.mem_cons.1 hmem with rfl | hr
        · exact absurd ha hnp
        · exact ⟨hnp, hr⟩
    · rw [newFresh_cons_of_not_mem rest ha]
      rcases eq_or_ne t a with rfl | hta
      · simp [ha]
      · simp only [List.mem_cons, hta, false_or, ih, not_or]

lemma newFresh_nodup : ∀ (l p : List String), (newFresh p l).Nodup := by
  intro l
  induction l with
  | nil => intro p; simp [newFresh]
  | cons a rest ih =>
    intro p
    by_cases ha : a ∈ p
    · rw [newFresh_cons_of_mem rest ha]; exact ih p
    · rw [newFresh_cons_of_not_mem rest ha]
      refine List.nodup_cons.2 ⟨fun hmem => ?_, ih _⟩
      exact ((newFresh_mem rest (a :: p) a).1 hmem).1 (List.mem_cons_self a p)

lemma newFresh_eq_nil (l p : List String) (h : ∀ t ∈ l, t ∈ p) :
    newFresh p l = [] := by
  refine List.eq_nil_iff_forall_not_mem.2 fun t hmem => ?_
  obtain ⟨hnp, hl⟩ := (newFresh_mem l p t).1 hmem
  exact hnp (h t hl)

/-! ### Effect of category sync on the store -/

lemma addCat_names (db : DB) (t : String) :
    catNames (addCat db t).2 = catNames db ++ [t] := by
  simp [addCat, catNames]

lemma catAppend_names : ∀ (ts : List String) (db : DB),
    catNames (catAppend db ts) = catNames db ++ ts
  | [], db => by simp [catAppend]
  | t :: ts, db => by
    rw [catAppend, catAppend_names ts, addCat_names]
    simp

lemma catAppend_rest : ∀ (ts : List String) (db : DB),
    (catAppend db ts).productos = db.productos ∧
    (catAppend db ts).variantes = db.variantes ∧
    (catAppend db ts).nextProdId = db.nextProdId
  | [], db => ⟨rfl, rfl, rfl⟩
  | t :: ts, db => by
    rw [catAppend]
    exact catAppend_rest ts (addCat db t).2

lemma find?_nombre_isSome {α : Type} (f : α → String) (l : List α) (nm : String) :
    (l.find? (fun c => f c == nm)).isSome ↔ nm ∈ l.map f := by
  induction l with
  | nil => simp
  | cons c cs ih =>
    rcases eq_or_ne (f c) nm with h | h
    · rw [List.find?_cons_of_pos _ (by simp [h])]
      simp [h]
    · rw [List.find?_cons_of_neg _ (by simp [h]), ih]
      simp only [List.map_cons, List.mem_cons]
      exact ⟨Or.inr, fun hor => hor.resolve_left fun he => h he.symm⟩

lemma findCat_isSome (db : DB) (nm : String) :
    (findCat db nm).isSome ↔ nm ∈ catNames db :=
  find?_nombre_isSome Categoria.nombre db.categorias nm

lemma findProd_isSome (db : DB) (nm : String) :
    (findProd db nm).isSome ↔ nm ∈ prodNames db :=
  find?_nombre_isSome Producto.nombre db.productos nm

lemma findCat_eq_none (db : DB) (nm : String) (h : nm ∉ catNames db) :
    findCat db nm = none :=
  Option.not_isSome_iff_eq_none.1 fun hs => h ((findCat_isSome db nm).1 hs)

lemma syncCatsFrom_cons (s : String) (rest : List (Option String)) (n : Nat) (db : DB) :
    syncCatsFrom (some s :: rest) n db =
      match findCat db (pyTitle s) with
      | some _ => syncCatsFrom rest n db
      | none => syncCatsFrom rest (n + 1) (addCat db (pyTitle s)).2 := rfl

lemma syncCatsFrom_spec : ∀ (l : List String) (n : Nat) (db : DB),
    syncCatsFrom (l.map some) n db =
      .ok (n + (newFresh (catNames db) (l.map pyTitle)).length,
           catAppend db (newFresh (catNames db) (l.map pyTitle)))
  | [], n, db => by simp [syncCatsFrom, newFresh, catAppend]
  | s :: rest, n, db => by
    rw [List.map_cons, List.map_cons, syncCatsFrom_cons]
    by_cases hmem : pyTitle s ∈ catNames db
    · obtain ⟨c, hc⟩ :=
        Option.isSome_iff_exists.1 ((findCat_isSome db _).2 hmem)
      rw [hc, newFresh_cons_of_mem _ hmem]
      exact syncCatsFrom_spec rest n db
    · rw [findCat_eq_none db _ hmem, newFresh_cons_of_not_mem _ hmem]
      show syncCatsFrom (List.map some rest) (n + 1) (addCat db (pyTitle s)).2 = _
      rw [syncCatsFrom_spec rest (n + 1) (addCat db (pyTitle s)).2]
      have hcongr : newFresh (catNames (addCat db (pyTitle s)).2) (rest.map pyTitle)
          = newFresh (pyTitle s :: catNames db) (rest.map pyTitle) := by
        refine newFresh_congr _ fun x => ?_
        rw [addCat_names]
        simp [or_comm]
      rw [hcongr]
      show Except.ok _ = Except.ok (_, catAppend (addCat db (pyTitle s)).2 _)
      refine congrArg Except.ok (congrArg₂ Prod.mk ?_ rfl)
      simp only [List.length_cons]
      omega

lemma get_categories_ok (env : Env) (l : List (Option String))
    (h : env.categories = .ok l) : get_categories env = l := by
  unfold get_categories
  rw [h]

lemma get_products_ok (env : Env) (limit : Nat) (l : List RawRecord)
    (h : env.products limit = .ok l) : get_products env limit = l := by
  unfold get_products
  rw [h]

lemma get_products_by_category_ok (env : Env) (c : String) (l : List RawRecord)
    (h : env.productsByCategory c = .ok l) : get_products_by_category env c = l := by
  unfold get_products_by_category
  rw [h]

/-! ### Claim C4 -/

/-- C4: for every fetched category-name list and store state,
`sync_categories_to_db` creates exactly one local `Categoria` per distinct
title-cased name not already present (the created names are `Nodup`, and a
name is created iff it is absent from the store and is the title-casing of a
fetched name), returns the number of created rows, and a second run over the
same fetched list creates nothing and returns 0. -/
theorem sync_categories_distinct_new_and_idempotent
    (env : Env) (db : DB) (l : List String)
    (henv : env.categories = .ok (l.map some)) :
    ∃ newCats : List String,
      sync_categories_to_db env db = .ok (newCats.length, catAppend db newCats) ∧
      newCats.Nodup ∧
      (∀ t, t ∈ newCats ↔ t ∉ catNames db ∧ ∃ s ∈ l, pyTitle s = t) ∧
      catNames (catAppend db newCats) = catNames db ++ newCats ∧
      sync_categories_to_db env (catAppend db newCats) =
        .ok (0, catAppend db newCats) := by
  refine ⟨newFresh (catNames db) (l.map pyTitle), ?_, newFresh_nodup _ _, ?_,
    catAppend_names _ _, ?_⟩
  · unfold sync_categories_to_db
    rw [get_categories_ok env _ henv, syncCatsFrom_spec, Nat.zero_add]
  · intro t
    rw [newFresh_mem]
    simp [List.mem_map]
  · unfold sync_categories_to_db
    rw [get_categories_ok env _ henv, syncCatsFrom_spec]
    have hnil : newFresh
        (catNames (catAppend db (newFresh (catNames db) (l.map pyTitle))))
        (l.map pyTitle) = [] := by
      refine newFresh_eq_nil _ _ fun t ht => ?_
      rw [catAppend_names]
      by_cases hdb : t ∈ catNames db
      · exact List.mem_append_left _ hdb
      · exact List.mem_append_right _ ((newFresh_mem _ _ _).2 ⟨hdb, ht⟩)
    rw [hnil]
    rfl

theorem sync_categories_distinct_new_and_idempotent_witness :
    ∃ newCats : List String,
      sync_categories_to_db envW4 emptyDB = .ok (newCats.length, catAppend emptyDB newCats) ∧
      newCats.Nodup ∧
      (∀ t, t ∈ newCats ↔ t ∉ catNames emptyDB ∧
        ∃ s ∈ ["mens clothing", "mens clothing"], pyTitle s = t) ∧
      catNames (catAppend emptyDB newCats) = catNames emptyDB ++ newCats ∧
      sync_categories_to_db envW4 (catAppend emptyDB newCats) =
        .ok (0, catAppend emptyDB newCats) :=
  sync_categories_distinct_new_and_idempotent envW4 emptyDB
    ["mens clothing", "mens clothing"] rfl

/-! ### Claim C7 -/

/-- C7: whenever the underlying GET signals a transport or HTTP-status error,
each fetch operation returns the empty collection (or `none` for the
single-item fetch) instead of propagating it, and a category sync run over a
failing fetch returns 0 and leaves the store untouched. -/
theorem fetch_errors_degrade_to_empty
    (env : Env) (e1 e2 e3 e4 : HErr) (limit : Nat) (pid : Int) (cat : String) (db : DB)
    (h1 : env.categories = .error e1) (h2 : env.products limit = .error e2)
    (h3 : env.productById pid = .error e3) (h4 : env.productsByCategory cat = .error e4) :
    get_categories env = [] ∧ get_products env limit = [] ∧
    get_product_by_id env pid = none ∧ get_products_by_category env cat = [] ∧
    sync_categories_to_db env db = .ok (0, db) := by
  refine ⟨?_, ?_, ?_, ?_, ?_⟩
  · unfold get_categories; rw [h1]
  · unfold get_products; rw [h2]
  · unfold get_product_by_id; rw [h3]
  · unfold get_products_by_category; rw [h4]
  · unfold sync_categories_to_db get_categories
    rw [h1]
    rfl

theorem fetch_errors_degrade_to_empty_witness :
    get_categories envErr = [] ∧ get_products envErr 20 = [] ∧
    get_product_by_id envErr 5 = none ∧ get_products_by_category envErr "electronics" = [] ∧
    sync_categories_to_db envErr emptyDB = .ok (0, emptyDB) :=
  fetch_errors_degrade_to_empty envErr .requestException .requestException
    .requestException .requestException 20 5 "electronics" emptyDB rfl rfl rfl rfl

/-! ### Product sync: reduction to the total layer -/

lemma ok_bind {α β : Type} (a : α) (f : α → Except PyError β) :
    (Except.ok a >>= f : Except PyError β) = f a := rfl

lemma prodStep_toRaw (db : DB) (r : Rec) :
    prodStep db (Rec.toRaw r) = .ok (prodStepT db r) := by
  unfold prodStep prodStepT Rec.toRaw
  simp only [getKey, ok_bind]
  cases h : findProd (resolveCat db (pyTitle r.category)).2 r.title <;> simp [h]

lemma syncProdsFrom_toRaw : ∀ (recs : List Rec) (n : Nat) (db : DB),
    syncProdsFrom (recs.map Rec.toRaw) n db = .ok (syncProdsT recs n db)
  | [], _, _ => rfl
  | r :: rest, n, db => by
    rw [List.map_cons]
    show (prodStep db (Rec.toRaw r) >>= fun step =>
        syncProdsFrom (rest.map Rec.toRaw) (if step.1 then n + 1 else n) step.2) = _
    rw [prodStep_toRaw, ok_bind, syncProdsFrom_toRaw rest]
    rfl

lemma syncProdsT_cons (r : Rec) (rest : List Rec) (n : Nat) (db : DB) :
    syncProdsT (r :: rest) n db =
      syncProdsT rest (if (prodStepT db r).1 then n + 1 else n) (prodStepT db r).2 := rfl

lemma prodStepT_of_found {db : DB} {r : Rec} {c : Producto}
    (h : findProd (resolveCat db (pyTitle r.category)).2 r.title = some c) :
    prodStepT db r = (false, (resolveCat db (pyTitle r.category)).2) := by
  unfold prodStepT
  rw [h]

lemma prodStepT_of_new {db : DB} {r : Rec}
    (h : findProd (resolveCat db (pyTitle r.category)).2 r.title = none) :
    prodStepT db r = (true,
      addVar
        (addProd (resolveCat db (pyTitle r.category)).2 r.title
          (resolveCat db (pyTitle r.category)).1 "API Externa")
        ⟨(resolveCat db (pyTitle r.category)).2.nextProdId,
         "API-" ++ toString r.id, "M", "N/A", r.price, r.image⟩) := by
  unfold prodStepT
  rw [h]

/-! ### Facts about category resolution -/

lemma resolveCat_of_mem (db : DB) (t : String) (h : t ∈ catNames db) :
    (resolveCat db t).2 = db := by
  unfold resolveCat
  obtain ⟨c, hc⟩ := Option.isSome_iff_exists.1 ((findCat_isSome db t).2 h)
  rw [hc]

lemma resolveCat_rest (db : DB) (t : String) :
    (resolveCat db t).2.productos = db.productos ∧
    (resolveCat db t).2.variantes = db.variantes ∧
    (resolveCat db t).2.nextProdId = db.nextProdId := by
  unfold resolveCat
  cases findCat db t <;> simp [addCat]

lemma prodNames_resolveCat (db : DB) (t : String) :
    prodNames (resolveCat db t).2 = prodNames db := by
  unfold prodNames
  rw [(resolveCat_rest db t).1]

lemma resolveCat_id_mem (db : DB) (t : String) :
    ∃ c ∈ (resolveCat db t).2.categorias, c.id_categoria = (resolveCat db t).1 := by
  unfold resolveCat
  cases hc : findCat db t with
  | some c => exact ⟨c, List.mem_of_find?_eq_some hc, rfl⟩
  | none => exact ⟨⟨db.nextCatId, t⟩, by simp [addCat], rfl⟩

lemma resolveCat_cats_sub (db : DB) (t : String) :
    ∀ c ∈ db.categorias, c ∈ (resolveCat db t).2.categorias := by
  unfold resolveCat
  cases findCat db t with
  | some c => exact fun c hc => hc
  | none => exact fun c hc => by simp [addCat, hc]

lemma catNames_step (db : DB) (t : String) (ts : List String) :
    catNames (resolveCat db t).2 ++ newFresh (catNames (resolveCat db t).2) ts
      = catNames db ++ newFresh (catNames db) (t :: ts) := by
  by_cases hmem : t ∈ catNames db
  · rw [resolveCat_of_mem db t hmem, newFresh_cons_of_mem ts hmem]
  · have h1 : catNames (resolveCat db t).2 = catNames db ++ [t] := by
      unfold resolveCat
      rw [findCat_eq_none db t hmem]
      exact addCat_names db t
    have hpq : ∀ x, x ∈ catNames db ++ [t] ↔ x ∈ t :: catNames db := fun x => by
      simp [or_comm]
    rw [h1, newFresh_cons_of_not_mem ts hmem, newFresh_congr ts hpq]
    simp [List.append_assoc]

/-! ### The master description of a product sync run -/

lemma syncProdsT_spec : ∀ (recs : List Rec) (n : Nat) (db : DB),
    ∃ ps vs,
      (syncProdsT recs n db).2.productos = db.productos ++ ps ∧
      (syncProdsT recs n db).2.variantes = db.variantes ++ vs ∧
      (syncProdsT recs n db).1 = n + ps.length ∧
      List.Forall₂ (fun (p : Producto) (v : ProductoVariante) =>
          v.id_producto = p.id_producto ∧ v.talla = "M" ∧ v.color = "N/A" ∧
          p.marca = "API Externa" ∧
          ∃ r ∈ recs, p.nombre = r.title ∧ v.sku = "API-" ++ toString r.id ∧
            v.precio = r.price ∧ v.image_url = r.image) ps vs ∧
      ps.map Producto.nombre = newFresh (prodNames db) (recs.map Rec.title) ∧
      catNames (syncProdsT recs n db).2 =
        catNames db ++ newFresh (catNames db) (recs.map fun r => pyTitle r.category) := by
  intro recs
  induction recs with
  | nil =>
    intro n db
    exact ⟨[], [], by simp [syncProdsT], by simp [syncProdsT], by simp [syncProdsT],
      List.Forall₂.nil, by simp [newFresh], by simp [syncProdsT, newFresh]⟩
  | cons r rest ih =>
    intro n db
    cases hfind : findProd (resolveCat db (pyTitle r.category)).2 r.title with
    | some c =>
      have hmem_title : r.title ∈ prodNames db := by
        have hs := (findProd_isSome _ _).1 (by rw [hfind]; rfl)
        rwa [prodNames_resolveCat] at hs
      have hcons : syncProdsT (r :: rest) n db
          = syncProdsT rest n (resolveCat db (pyTitle r.category)).2 := by
        rw [syncProdsT_cons, prodStepT_of_found hfind]
        rfl
      obtain ⟨ps, vs, h1, h2, h3, h4, h5, h6⟩ := ih n (resolveCat db (pyTitle r.category)).2
      refine ⟨ps, vs, ?_, ?_, ?_, ?_, ?_, ?_⟩
      · rw [hcons, h1, (resolveCat_rest db _).1]
      · rw [hcons, h2, (resolveCat_rest db _).2.1]
      · rw [hcons, h3]
      · refine h4.imp fun p v hpv => ?_
        obtain ⟨ha, hb, hc, hd, r2, hr2, he⟩ := hpv
        exact ⟨ha, hb, hc, hd, r2, List.mem_cons_of_mem _ hr2, he⟩
      · rw [h5, prodNames_resolveCat, List.map_cons, newFresh_cons_of_mem _ hmem_title]
      · rw [hcons, h6, List.map_cons]
        exact catNames_step db (pyTitle r.category) (rest.map fun r => pyTitle r.category)
    | none =>
      have hnot_title : r.title ∉ prodNames db := by
        intro hmem
        have hs : (findProd (resolveCat db (pyTitle r.category)).2 r.title).isSome :=
          (findProd_isSome _ _).2 (by rwa [prodNames_resolveCat])
        rw [hfind] at hs
        simp at hs
      have hcons : syncProdsT (r :: rest) n db
          = syncProdsT rest (n + 1)
              (addVar
                (addProd (resolveCat db (pyTitle r.category)).2 r.title
                  (resolveCat db (pyTitle r.category)).1 "API Externa")
                ⟨(resolveCat db (pyTitle r.category)).2.nextProdId,
                 "API-" ++ toString r.id, "M", "N/A", r.price, r.image⟩) := by
        rw [syncProdsT_cons, prodStepT_of_new hfind]
        rfl
      obtain ⟨ps, vs, h1, h2, h3, h4, h5, h6⟩ := ih (n + 1)
        (addVar
          (addProd (resolveCat db (pyTitle r.category)).2 r.title
            (resolveCat db (pyTitle r.category)).1 "API Externa")
          ⟨(resolveCat db (pyTitle r.category)).2.nextProdId,
           "API-" ++ toString r.id, "M", "N/A", r.price, r.image⟩)
      have hprods3 : (addVar
            (addProd (resolveCat db (pyTitle r.category)).2 r.title
              (resolveCat db (pyTitle r.category)).1 "API Externa")
            ⟨(resolveCat db (pyTitle r.category)).2.nextProdId,
             "API-" ++ toString r.id, "M", "N/A", r.price, r.image⟩).productos
          = db.productos ++ [⟨(resolveCat db (pyTitle r.category)).2.nextProdId, r.title,
              (resolveCat db (pyTitle r.category)).1, "API Externa"⟩] := by
        simp [addVar, addProd, (resolveCat_rest db _).1]
      have hvars3 : (addVar
            (addProd (resolveCat db (pyTitle r.category)).2 r.title
              (resolveCat db (pyTitle r.category)).1 "API Externa")
            ⟨(resolveCat db (pyTitle r.category)).2.nextProdId,
             "API-" ++ toString r.id, "M", "N/A", r.price, r.image⟩).variantes
          = db.variantes ++ [⟨(resolveCat db (pyTitle r.category)).2.nextProdId,
              "API-" ++ toString r.id, "M", "N/A", r.price, r.image⟩] := by
        simp [addVar, addProd, (resolveCat_rest db _).2.1]
      have hcats3 : catNames (addVar
            (addProd (resolveCat db (pyTitle r.category)).2 r.title
              (resolveCat db (pyTitle r.category)).1 "API Externa")
            ⟨(resolveCat db (pyTitle r.category)).2.nextProdId,
             "API-" ++ toString r.id, "M", "N/A", r.price, r.image⟩)
          = catNames (resolveCat db (pyTitle r.category)).2 := by
        simp [addVar, addProd, catNames]
      refine ⟨⟨(resolveCat db (pyTitle r.category)).2.nextProdId, r.title,
          (resolveCat db (pyTitle r.category)).1, "API Externa"⟩ :: ps,
        ⟨(resolveCat db (pyTitle r.category)).2.nextProdId,
         "API-" ++ toString r.id, "M", "N/A", r.price, r.image⟩ :: vs,
        ?_, ?_, ?_, ?_, ?_, ?_⟩
      · rw [hcons, h1, hprods3]
        simp [List.append_assoc]
      · rw [hcons, h2, hvars3]
        simp [List.append_assoc]
      · rw [hcons, h3]
        simp [List.length_cons]
        omega
      · refine List.Forall₂.cons ⟨rfl, rfl, rfl, rfl, r, List.mem_cons_self r rest,
          rfl, rfl, rfl, rfl⟩ ?_
        refine h4.imp fun p v hpv => ?_
        obtain ⟨ha, hb, hc, hd, r2, hr2, he⟩ := hpv
        exact ⟨ha, hb, hc, hd, r2, List.mem_cons_of_mem _ hr2, he⟩
      · have hpn3 : prodNames (addVar
              (addProd (resolveCat db (pyTitle r.category)).2 r.title
                (resolveCat db (pyTitle r.category)).1 "API Externa")
              ⟨(resolveCat db (pyTitle r.category)).2.nextProdId,
               "API-" ++ toString r.id, "M", "N/A", r.price, r.image⟩)
            = prodNames db ++ [r.title] := by
          unfold prodNames
          rw [hprods3]
          simp
        have hpq : ∀ x, x ∈ prodNames db ++ [r.title] ↔ x ∈ r.title :: prodNames db :=
          fun x => by simp [or_comm]
        rw [List.map_cons, List.map_cons, h5, hpn3, newFresh_congr _ hpq,
          newFresh_cons_of_not_mem _ hnot_title]
      · rw [hcons, h6, hcats3, List.map_cons]
        exact catNames_step db (pyTitle r.category) (rest.map fun r => pyTitle r.category)

lemma syncProdsT_idem : ∀ (recs : List Rec) (n : Nat) (db : DB),
    (∀ r ∈ recs, r.title ∈ prodNames db ∧ pyTitle r.category ∈ catNames db) →
    syncProdsT recs n db = (n, db)
  | [], _, _, _ => rfl
  | r :: rest, n, db, h => by
    have h1 := h r (List.mem_cons_self r rest)
    have hrc2 : (resolveCat db (pyTitle r.category)).2 = db :=
      resolveCat_of_mem db _ h1.2
    obtain ⟨p, hp⟩ := Option.isSome_iff_exists.1 ((findProd_isSome db r.title).2 h1.1)
    have hfind : findProd (resolveCat db (pyTitle r.category)).2 r.title = some p := by
      rw [hrc2]
      exact hp
    have hcons : syncProdsT (r :: rest) n db = syncProdsT rest n db := by
      rw [syncProdsT_cons, prodStepT_of_found hfind, hrc2]
      rfl
    rw [hcons]
    exact syncProdsT_idem rest n db fun x hx => h x (List.mem_cons_of_mem _ hx)

lemma mem_base_or_newFresh {t : String} {p l : List String} (ht : t ∈ l) :
    t ∈ p ++ newFresh p l := by
  by_cases hp : t ∈ p
  · exact List.mem_append_left _ hp
  · exact List.mem_append_right _ ((newFresh_mem l p t).2 ⟨hp, ht⟩)

lemma sync_products_to_db_toRaw (env : Env) (limit : Nat) (db : DB) (recs : List Rec)
    (henv : env.products limit = .ok (recs.map Rec.toRaw)) :
    sync_products_to_db env limit db = .ok (syncProdsT recs 0 db) := by
  unfold sync_products_to_db
  rw [get_products_ok env limit _ henv, syncProdsFrom_toRaw]

lemma prodNames_syncProdsT (recs : List Rec) (db : DB) {ps : List Producto}
    (h1 : (syncProdsT recs 0 db).2.productos = db.productos ++ ps) :
    prodNames (syncProdsT recs 0 db).2 = prodNames db ++ ps.map Producto.nombre := by
  unfold prodNames
  rw [h1]
  simp

/-! ### Claim C5 -/

/-- C5: for every fetched product-record list and store state,
`sync_products_to_db` creates exactly one `Producto` and one
`ProductoVariante` per distinct title not already present (created titles are
`Nodup`, a title is created iff absent and fetched, created product and
variant lists have equal length) and returns the created count; re-running
over records with the same titles and categories — prices and images may have
changed — creates nothing and returns 0. -/
theorem sync_products_new_titles_and_idempotent
    (env env2 : Env) (limit limit2 : Nat) (db : DB) (recs recs2 : List Rec)
    (henv : env.products limit = .ok (recs.map Rec.toRaw))
    (htitles : recs2.map Rec.title = recs.map Rec.title)
    (hcats : recs2.map Rec.category = recs.map Rec.category)
    (henv2 : env2.products limit2 = .ok (recs2.map Rec.toRaw)) :
    ∃ ps vs db2,
      sync_products_to_db env limit db = .ok (ps.length, db2) ∧
      db2.productos = db.productos ++ ps ∧
      db2.variantes = db.variantes ++ vs ∧
      ps.length = vs.length ∧
      (ps.map Producto.nombre).Nodup ∧
      (∀ t, t ∈ ps.map Producto.nombre ↔ t ∉ prodNames db ∧ t ∈ recs.map Rec.title) ∧
      sync_products_to_db env2 limit2 db2 = .ok (0, db2) := by
  obtain ⟨ps, vs, h1, h2, h3, h4, h5, h6⟩ := syncProdsT_spec recs 0 db
  refine ⟨ps, vs, (syncProdsT recs 0 db).2, ?_, h1, h2, h4.length_eq, ?_, ?_, ?_⟩
  · rw [sync_products_to_db_toRaw env limit db recs henv]
    exact congrArg Except.ok (Prod.ext (by rw [h3, Nat.zero_add]) rfl)
  · rw [h5]
    exact newFresh_nodup _ _
  · intro t
    rw [h5, newFresh_mem]
  · have hall : ∀ x ∈ recs2, x.title ∈ prodNames (syncProdsT recs 0 db).2 ∧
        pyTitle x.category ∈ catNames (syncProdsT recs 0 db).2 := by
      intro x hx
      constructor
      · have ht : x.title ∈ recs.map Rec.title := by
          rw [← htitles]
          exact List.mem_map_of_mem _ hx
        rw [prodNames_syncProdsT recs db h1, h5]
        exact mem_base_or_newFresh ht
      · have hc : pyTitle x.category ∈ recs.map fun r => pyTitle r.category := by
          have : pyTitle x.category ∈ (recs.map Rec.category).map pyTitle := by
            rw [← hcats]
            exact List.mem_map_of_mem _ (List.mem_map_of_mem _ hx)
          rwa [List.map_map] at this
        rw [h6]
        exact mem_base_or_newFresh hc
    rw [sync_products_to_db_toRaw env2 limit2 _ recs2 henv2,
      syncProdsT_idem recs2 0 _ hall]

theorem sync_products_new_titles_and_idempotent_witness :
    ∃ ps vs db2,
      sync_products_to_db envW 50 emptyDB = .ok (ps.length, db2) ∧
      db2.productos = emptyDB.productos ++ ps ∧
      db2.variantes = emptyDB.variantes ++ vs ∧
      ps.length = vs.length ∧
      (ps.map Producto.nombre).Nodup ∧
      (∀ t, t ∈ ps.map Producto.nombre ↔ t ∉ prodNames emptyDB ∧
        t ∈ [recShirt, recLamp].map Rec.title) ∧
      sync_products_to_db envW5b 50 db2 = .ok (0, db2) :=
  sync_products_new_titles_and_idempotent envW envW5b 50 50 emptyDB
    [recShirt, recLamp] [recShirtB, recLamp] rfl rfl rfl rfl

/-! ### Claim C1 -/

/-- C1 counterexample: a fetched record with the all-lowercase title "shirt"
produces a `Producto` named "shirt", not the title-cased "Shirt" the claim
requires (title-casing is applied only to category names). -/
theorem sync_products_title_not_titlecased_cex :
    (sync_products_to_db envC1 50 emptyDB).toOption.map
        (fun x => (x.1, x.2.productos.map Producto.nombre)) = some (1, ["shirt"]) ∧
    pyTitle "shirt" = "Shirt" ∧
    ("Shirt" : String) ∉ ["shirt"] := by
  refine ⟨rfl, rfl, by decide⟩

/-- C1 amended: each `Producto` created by `sync_products_to_db` carries the
raw (not title-cased) source title as its name, and products are identified
by that raw title: after a run, every fetched raw title is present. -/
theorem sync_products_uses_raw_title
    (env : Env) (limit : Nat) (db : DB) (recs : List Rec)
    (henv : env.products limit = .ok (recs.map Rec.toRaw)) :
    ∃ n db2,
      sync_products_to_db env limit db = .ok (n, db2) ∧
      (∀ p ∈ db2.productos, p ∉ db.productos → ∃ r ∈ recs, p.nombre = r.title) ∧
      (∀ r ∈ recs, r.title ∈ prodNames db2) := by
  obtain ⟨ps, vs, h1, h2, h3, h4, h5, h6⟩ := syncProdsT_spec recs 0 db
  refine ⟨(syncProdsT recs 0 db).1, (syncProdsT recs 0 db).2,
    sync_products_to_db_toRaw env limit db recs henv, ?_, ?_⟩
  · intro p hp hnp
    rw [h1] at hp
    rcases List.mem_append.1 hp with h | h
    · exact absurd h hnp
    · have hmem : p.nombre ∈ ps.map Producto.nombre := List.mem_map_of_mem _ h
      rw [h5] at hmem
      obtain ⟨-, ht⟩ := (newFresh_mem _ _ _).1 hmem
      obtain ⟨r, hr, he⟩ := List.mem_map.1 ht
      exact ⟨r, hr, he.symm⟩
  · intro r hr
    rw [prodNames_syncProdsT recs db h1, h5]
    exact mem_base_or_newFresh (List.mem_map_of_mem _ hr)

theorem sync_products_uses_raw_title_witness :
    ∃ n db2,
      sync_products_to_db envW 50 emptyDB = .ok (n, db2) ∧
      (∀ p ∈ db2.productos, p ∉ emptyDB.productos →
        ∃ r ∈ [recShirt, recLamp], p.nombre = r.title) ∧
      (∀ r ∈ [recShirt, recLamp], r.title ∈ prodNames db2) :=
  sync_products_uses_raw_title envW 50 emptyDB [recShirt, recLamp] rfl

/-! ### Claim C8 -/

/-- C8: every product created by a sync run is appended (existing rows are
untouched) together with exactly one variant, pairwise: the variant carries
the created product id, SKU "API-" followed by the source record id, size
"M", color "N/A", and price and image copied verbatim from the same record
whose title the product carries; the product carries the brand sentinel. -/
theorem sync_products_variant_fields
    (env : Env) (limit : Nat) (db : DB) (recs : List Rec)
    (henv : env.products limit = .ok (recs.map Rec.toRaw)) :
    ∃ ps vs n db2,
      sync_products_to_db env limit db = .ok (n, db2) ∧
      db2.productos = db.productos ++ ps ∧
      db2.variantes = db.variantes ++ vs ∧
      List.Forall₂ (fun (p : Producto) (v : ProductoVariante) =>
        v.id_producto = p.id_producto ∧ v.talla = "M" ∧ v.color = "N/A" ∧
        p.marca = "API Externa" ∧
        ∃ r ∈ recs, p.nombre = r.title ∧ v.sku = "API-" ++ toString r.id ∧
          v.precio = r.price ∧ v.image_url = r.image) ps vs := by
  obtain ⟨ps, vs, h1, h2, h3, h4, h5, h6⟩ := syncProdsT_spec recs 0 db
  exact ⟨ps, vs, (syncProdsT recs 0 db).1, (syncProdsT recs 0 db).2,
    sync_products_to_db_toRaw env limit db recs henv, h1, h2, h4⟩

theorem sync_products_variant_fields_witness :
    ∃ ps vs n db2,
      sync_products_to_db envW 50 emptyDB = .ok (n, db2) ∧
      db2.productos = emptyDB.productos ++ ps ∧
      db2.variantes = emptyDB.variantes ++ vs ∧
      List.Forall₂ (fun (p : Producto) (v : ProductoVariante) =>
        v.id_producto = p.id_producto ∧ v.talla = "M" ∧ v.color = "N/A" ∧
        p.marca = "API Externa" ∧
        ∃ r ∈ [recShirt, recLamp], p.nombre = r.title ∧
          v.sku = "API-" ++ toString r.id ∧
          v.precio = r.price ∧ v.image_url = r.image) ps vs :=
  sync_products_variant_fields envW 50 emptyDB [recShirt, recLamp] rfl

/-! ### Claim C6 -/

lemma prodStepT_new_product_has_cat (db : DB) (r : Rec) (p : Producto)
    (hp : p ∈ (prodStepT db r).2.productos)
    (hnp : p ∉ (resolveCat db (pyTitle r.category)).2.productos) :
    ∃ c ∈ (resolveCat db (pyTitle r.category)).2.categorias,
      c.id_categoria = p.id_categoria := by
  cases hfind : findProd (resolveCat db (pyTitle r.category)).2 r.title with
  | some c =>
    rw [prodStepT_of_found hfind] at hp
    exact absurd hp hnp
  | none =>
    rw [prodStepT_of_new hfind] at hp
    have hp2 : p ∈ (resolveCat db (pyTitle r.category)).2.productos ++
        [⟨(resolveCat db (pyTitle r.category)).2.nextProdId, r.title,
          (resolveCat db (pyTitle r.category)).1, "API Externa"⟩] := by
      simpa [addVar, addProd] using hp
    rcases List.mem_append.1 hp2 with h | h
    · exact absurd h hnp
    · obtain rfl := List.mem_singleton.1 h
      obtain ⟨c, hc, he⟩ := resolveCat_id_mem db (pyTitle r.category)
      exact ⟨c, hc, he⟩

lemma prodStepT_refOK (db : DB) (r : Rec) (h : refOK db) : refOK (prodStepT db r).2 := by
  intro p hp
  have hstepcats : ∀ c ∈ (resolveCat db (pyTitle r.category)).2.categorias,
      c ∈ (prodStepT db r).2.categorias := by
    intro c hc
    cases hfind : findProd (resolveCat db (pyTitle r.category)).2 r.title with
    | some c2 =>
      rw [prodStepT_of_found hfind]
      exact hc
    | none =>
      rw [prodStepT_of_new hfind]
      simpa [addVar, addProd] using hc
  by_cases hnp : p ∈ (resolveCat db (pyTitle r.category)).2.productos
  · have hpd : p ∈ db.productos := by rwa [(resolveCat_rest db _).1] at hnp
    obtain ⟨c, hc, he⟩ := h p hpd
    exact ⟨c, hstepcats c (resolveCat_cats_sub db _ c hc), he⟩
  · obtain ⟨c, hc, he⟩ := prodStepT_new_product_has_cat db r p hp hnp
    exact ⟨c, hstepcats c hc, he⟩

lemma syncProdsT_refOK : ∀ (recs : List Rec) (n : Nat) (db : DB),
    refOK db → refOK (syncProdsT recs n db).2
  | [], _, _, h => h
  | r :: rest, n, db, h => by
    rw [syncProdsT_cons]
    exact syncProdsT_refOK rest _ _ (prodStepT_refOK db r h)

/-- C6: category resolution yields the id of a category existing in the store
at that point; a product added by a step references exactly that id, so the
referenced category exists strictly before the product is created; and a full
sync run preserves referential integrity of the store. -/
theorem sync_products_category_before_product
    (env : Env) (limit : Nat) (db : DB) (recs : List Rec)
    (henv : env.products limit = .ok (recs.map Rec.toRaw))
    (href : refOK db) :
    (∀ (db0 : DB) (t : String),
        ∃ c ∈ (resolveCat db0 t).2.categorias, c.id_categoria = (resolveCat db0 t).1) ∧
    (∀ (db0 : DB) (r : Rec) (p : Producto),
        p ∈ (prodStepT db0 r).2.productos →
        p ∉ (resolveCat db0 (pyTitle r.category)).2.productos →
        ∃ c ∈ (resolveCat db0 (pyTitle r.category)).2.categorias,
          c.id_categoria = p.id_categoria) ∧
    ∃ n db2, sync_products_to_db env limit db = .ok (n, db2) ∧ refOK db2 := by
  refine ⟨resolveCat_id_mem, prodStepT_new_product_has_cat,
    (syncProdsT recs 0 db).1, (syncProdsT recs 0 db).2,
    sync_products_to_db_toRaw env limit db recs henv, ?_⟩
  exact syncProdsT_refOK recs 0 db href

theorem sync_products_category_before_product_witness :
    (∀ (db0 : DB) (t : String),
        ∃ c ∈ (resolveCat db0 t).2.categorias, c.id_categoria = (resolveCat db0 t).1) ∧
    (∀ (db0 : DB) (r : Rec) (p : Producto),
        p ∈ (prodStepT db0 r).2.productos →
        p ∉ (resolveCat db0 (pyTitle r.category)).2.productos →
        ∃ c ∈ (resolveCat db0 (pyTitle r.category)).2.categorias,
          c.id_categoria = p.id_categoria) ∧
    ∃ n db2, sync_products_to_db envW 50 emptyDB = .ok (n, db2) ∧ refOK db2 :=
  sync_products_category_before_product envW 50 emptyDB [recShirt, recLamp] rfl
    (fun p hp => absurd hp (List.not_mem_nil p))

/-! ### Claim C2 -/

lemma syncLoop_cons (env : Env) (x : RawRecord) (l : List RawRecord) (db : DB) :
    syncLoop env (x :: l) db =
      (sync_products_to_db env 1 db) >>= fun step => syncLoop env l step.2 := rfl

lemma syncLoop_eq_syncNTimes (env : Env) : ∀ (l : List RawRecord) (db : DB),
    syncLoop env l db = syncNTimes env l.length db
  | [], _ => rfl
  | x :: rest, db => by
    rw [syncLoop_cons, List.length_cons]
    show _ = (sync_products_to_db env 1 db) >>= fun step =>
      syncNTimes env rest.length step.2
    cases h : sync_products_to_db env 1 db with
    | error e => rfl
    | ok step =>
      show syncLoop env rest step.2 = syncNTimes env rest.length step.2
      exact syncLoop_eq_syncNTimes env rest step.2

/-- C2 counterexample: with a category pool containing one matching record
titled "zzz shirt" and a global listing headed by "Lamp", `search_and_sync`
returns the search result but persists only "Lamp": the result product is
never fetched or persisted, because each loop iteration calls the product
sync with limit 1, which fetches the head of the global listing instead of
the result record. -/
theorem search_and_sync_does_not_sync_results_cex :
    (search_and_sync envC2 emptyDB "shirt" (some "x")).toOption.map
        (fun x => (x.1.map RawRecord.title, x.2.productos.map Producto.nombre))
      = some ([some "zzz shirt"], ["Lamp"]) ∧
    ("zzz shirt" : String) ∉ ["Lamp"] :=
  ⟨rfl, by decide⟩

/-- C2 amended: `search_and_sync` computes the `search_products` result list,
then once per result record among the first `min 5` of them invokes the
product sync with limit 1 — each such call fetches the first product of the
global listing rather than the result record itself — and finally returns the
full search result list unchanged. -/
theorem search_and_sync_returns_results_and_syncs_listing_head
    (env : Env) (db : DB) (query : String) (category : Option String) :
    search_and_sync env db query category =
      (syncNTimes env (min 5 (search_products env query category).length) db).map
        (fun db2 => (search_products env query category, db2)) := by
  show (syncLoop env ((search_products env query category).take 5) db) >>=
      (fun db2 => Except.ok (search_products env query category, db2)) = _
  rw [syncLoop_eq_syncNTimes, List.length_take]
  cases h : syncNTimes env (min 5 (search_products env query category).length) db with
  | error e => rfl
  | ok db2 => rfl

/-! ### Claim C3 -/

/-- C3 counterexample: a fetched product payload of unexpected shape (a
dictionary with none of the expected keys) makes `sync_products_to_db` raise
a `KeyError` to the caller even though every store operation succeeds. -/
theorem sync_products_raises_on_malformed_record_cex :
    sync_products_to_db envC3 50 emptyDB = .error (.keyError "category") ∧
    get_products envC3 50 = [badRecord] :=
  ⟨rfl, rfl⟩

lemma syncLoop_ok (env : Env) (recs1 : List Rec)
    (h : env.products 1 = .ok (recs1.map Rec.toRaw)) :
    ∀ (l : List RawRecord) (db : DB), ∃ db2, syncLoop env l db = .ok db2
  | [], db => ⟨db, rfl⟩
  | x :: rest, db => by
    obtain ⟨db2, h2⟩ := syncLoop_ok env recs1 h rest (syncProdsT recs1 0 db).2
    refine ⟨db2, ?_⟩
    rw [syncLoop_cons, sync_products_to_db_toRaw env 1 db recs1 h, ok_bind]
    exact h2

/-- C3 amended: when every fetched payload is well formed (category names are
strings, product records carry the five expected keys), each sync operation
returns normally with a result; the search and recommendation operations are
total by construction (their broad exception handler converts any failure to
an empty sequence).  On malformed payload shapes the sync operations can
raise, as the counterexample shows. -/
theorem operations_return_normally_on_wellformed_payloads
    (env : Env) (db : DB) (limit : Nat) (cats : List String)
    (recs recs1 : List Rec) (query : String) (category : Option String)
    (hc : env.categories = .ok (cats.map some))
    (hp : env.products limit = .ok (recs.map Rec.toRaw))
    (hp1 : env.products 1 = .ok (recs1.map Rec.toRaw)) :
    (∃ x, sync_categories_to_db env db = .ok x) ∧
    (∃ y, sync_products_to_db env limit db = .ok y) ∧
    (∃ z, sync_all_data env db limit = .ok z) ∧
    (∃ w, search_and_sync env db query category = .ok w) := by
  have hcat : ∀ db0 : DB, ∃ x, sync_categories_to_db env db0 = .ok x := by
    intro db0
    refine ⟨(0 + (newFresh (catNames db0) (cats.map pyTitle)).length,
      catAppend db0 (newFresh (catNames db0) (cats.map pyTitle))), ?_⟩
    unfold sync_categories_to_db
    rw [get_categories_ok env _ hc, syncCatsFrom_spec]
  have hprod : ∀ db0 : DB, sync_products_to_db env limit db0 = .ok (syncProdsT recs 0 db0) :=
    fun db0 => sync_products_to_db_toRaw env limit db0 recs hp
  refine ⟨hcat db, ⟨_, hprod db⟩, ?_, ?_⟩
  · obtain ⟨x, hx⟩ := hcat db
    refine ⟨((x.1, (syncProdsT recs 0 x.2).1), (syncProdsT recs 0 x.2).2), ?_⟩
    unfold sync_all_data
    rw [hx, ok_bind, hprod x.2, ok_bind]
  · obtain ⟨db2, hdb2⟩ :=
      syncLoop_ok env recs1 hp1 ((search_products env query category).take 5) db
    refine ⟨(search_products env query category, db2), ?_⟩
    show (syncLoop env ((search_products env query category).take 5) db) >>=
        (fun d => Except.ok (search_products env query category, d)) = _
    rw [hdb2, ok_bind]

theorem operations_return_normally_on_wellformed_payloads_witness :
    (∃ x, sync_categories_to_db envW emptyDB = .ok x) ∧
    (∃ y, sync_products_to_db envW 50 emptyDB = .ok y) ∧
    (∃ z, sync_all_data envW emptyDB 50 = .ok z) ∧
    (∃ w, search_and_sync envW emptyDB "shirt" none = .ok w) :=
  operations_return_normally_on_wellformed_payloads envW emptyDB 50 ["electronics"]
    [recShirt, recLamp] [recShirt, recLamp] "shirt" none rfl rfl rfl

/-! ### Claim C9 -/

lemma filterTitles_cons (q : String) (r : Rec) (l : List RawRecord) :
    filterTitles q (Rec.toRaw r :: l) =
      (filterTitles q l) >>= fun rest2 =>
        if strIn (pyLower q) (pyLower r.title) then .ok (Rec.toRaw r :: rest2)
        else .ok rest2 := rfl

lemma filterTitles_toRaw (q : String) : ∀ (recs : List Rec),
    filterTitles q (recs.map Rec.toRaw) =
      .ok ((recs.filter fun r => strIn (pyLower q) (pyLower r.title)).map Rec.toRaw)
  | [] => rfl
  | r :: rest => by
    rw [List.map_cons, filterTitles_cons, filterTitles_toRaw q rest, ok_bind]
    by_cases hq : strIn (pyLower q) (pyLower r.title) = true
    · rw [if_pos hq]
      simp [List.filter_cons, hq]
    · rw [if_neg hq]
      simp [List.filter_cons, hq]

lemma take20_length (x : Except PyError (List RawRecord)) :
    (match x with
      | .ok f => f.take 20
      | .error _ => ([] : List RawRecord)).length ≤ 20 := by
  cases x with
  | ok f => simp [List.length_take]
  | error e => simp

/-- C9 counterexample: with the empty string given as category, the code
treats the falsy value as absent and pools from the first 100 products, not
from `fetchProductsByCategory("")` as the claim requires: here the
by-category pool would produce one match while the code returns none. -/
theorem search_products_empty_category_pool_cex :
    search_products envC9 "" (some "") = [] ∧
    get_products_by_category envC9 "" = [recShirt.toRaw] ∧
    ((filterTitles "" [recShirt.toRaw]).toOption.map fun f => f.take 20)
      = some [recShirt.toRaw] ∧
    some ([recShirt.toRaw] : List RawRecord) ≠ some [] :=
  ⟨rfl, rfl, rfl, by decide⟩

/-- C9 amended: `search_products` pools from `fetchProductsByCategory` when a
non-empty category is given and from `fetchProducts(100)` otherwise —
including when the given category is the empty (falsy) string — keeps exactly
the records whose title contains the query case-insensitively in source
order, and caps the result at 20; the result length never exceeds 20. -/
theorem search_products_filters_pool
    (env : Env) (q : String) (c : String) (pool pool100 : List Rec)
    (hc : c ≠ "")
    (hpool : env.productsByCategory c = .ok (pool.map Rec.toRaw))
    (h100 : env.products 100 = .ok (pool100.map Rec.toRaw)) :
    search_products env q (some c) =
      ((pool.filter fun r => strIn (pyLower q) (pyLower r.title)).map Rec.toRaw).take 20 ∧
    search_products env q none =
      ((pool100.filter fun r => strIn (pyLower q) (pyLower r.title)).map Rec.toRaw).take 20 ∧
    search_products env q (some "") =
      ((pool100.filter fun r => strIn (pyLower q) (pyLower r.title)).map Rec.toRaw).take 20 ∧
    ∀ cat : Option String, (search_products env q cat).length ≤ 20 := by
  have hb : (c == "") = false := beq_eq_false_iff_ne.2 hc
  refine ⟨?_, ?_, ?_, ?_⟩
  · show (match filterTitles q
        (if c == "" then get_products env 100 else get_products_by_category env c) with
      | .ok filtered => filtered.take 20
      | .error _ => ([] : List RawRecord)) = _
    rw [hb, if_neg Bool.false_ne_true,
      get_products_by_category_ok env c _ hpool, filterTitles_toRaw]
  · show (match filterTitles q (get_products env 100) with
      | .ok filtered => filtered.take 20
      | .error _ => ([] : List RawRecord)) = _
    rw [get_products_ok env 100 _ h100, filterTitles_toRaw]
  · show (match filterTitles q (get_products env 100) with
      | .ok filtered => filtered.take 20
      | .error _ => ([] : List RawRecord)) = _
    rw [get_products_ok env 100 _ h100, filterTitles_toRaw]
  · intro cat
    exact take20_length (filterTitles q (match cat with
      | some c2 => if c2 == "" then get_products env 100
        else get_products_by_category env c2
      | none => get_products env 100))

theorem search_products_filters_pool_witness :
    search_products envW "shirt" (some "mens clothing") =
      (([recShirt, recZShirt].filter fun r =>
        strIn (pyLower "shirt") (pyLower r.title)).map Rec.toRaw).take 20 ∧
    search_products envW "shirt" none =
      (([recShirt, recLamp].filter fun r =>
        strIn (pyLower "shirt") (pyLower r.title)).map Rec.toRaw).take 20 ∧
    search_products envW "shirt" (some "") =
      (([recShirt, recLamp].filter fun r =>
        strIn (pyLower "shirt") (pyLower r.title)).map Rec.toRaw).take 20 ∧
    ∀ cat : Option String, (search_products envW "shirt" cat).length ≤ 20 :=
  search_products_filters_pool envW "shirt" "mens clothing"
    [recShirt, recZShirt] [recShirt, recLamp] (by decide) rfl rfl

/-! ### Claim C10 -/

lemma filterOutId_cons (pid : Int) (r : Rec) (l : List RawRecord) :
    filterOutId pid (Rec.toRaw r :: l) =
      (filterOutId pid l) >>= fun rest2 =>
        if r.id != pid then .ok (Rec.toRaw r :: rest2) else .ok rest2 := rfl

lemma filterOutId_toRaw (pid : Int) : ∀ (recs : List Rec),
    filterOutId pid (recs.map Rec.toRaw) =
      .ok ((recs.filter fun r => r.id != pid).map Rec.toRaw)
  | [] => rfl
  | r :: rest => by
    rw [List.map_cons, filterOutId_cons, filterOutId_toRaw pid rest, ok_bind]
    by_cases hq : (r.id != pid) = true
    · rw [if_pos hq]
      simp [List.filter_cons, hq]
    · rw [if_neg hq]
      simp [List.filter_cons, hq]

/-- C10: when the base-product fetch yields no product, the recommendations
are empty whatever the by-category endpoint would answer (the category-fetch
path is not consulted); when it yields a well-formed base product, the result
is the base product's category pool with every record whose id equals the
requested id removed, in source order, capped at `limit`. -/
theorem get_product_recommendations_spec
    (envA envB : Env) (pidA pidB : Int) (limit : Nat)
    (f : String → Except HErr (List RawRecord))
    (hA : envA.productById pidA = .error .requestException ∨
      envA.productById pidA = .ok none)
    (base : Rec) (pool : List Rec)
    (hB1 : envB.productById pidB = .ok (some base.toRaw))
    (hB2 : envB.productsByCategory base.category = .ok (pool.map Rec.toRaw)) :
    get_product_recommendations { envA with productsByCategory := f } pidA limit = [] ∧
    get_product_recommendations envB pidB limit =
      ((pool.filter fun r => r.id != pidB).map Rec.toRaw).take limit := by
  constructor
  · have hnone : get_product_by_id { envA with productsByCategory := f } pidA = none := by
      show (match envA.productById pidA with
        | .error _ => none
        | .ok v => v) = none
      rcases hA with h | h <;> rw [h]
    unfold get_product_recommendations
    rw [hnone]
  · have hsome : get_product_by_id envB pidB = some base.toRaw := by
      unfold get_product_by_id
      rw [hB1]
    unfold get_product_recommendations
    rw [hsome]
    show (match filterOutId pidB (get_products_by_category envB base.category) with
      | .ok recommendations => recommendations.take limit
      | .error _ => ([] : List RawRecord)) = _
    rw [get_products_by_category_ok envB _ _ hB2, filterOutId_toRaw]

theorem get_product_recommendations_spec_witness :
    get_product_recommendations { envW with productsByCategory := fun _ => .ok [] } 3 1 = [] ∧
    get_product_recommendations envW 5 1 =
      (([recShirt, recZShirt].filter fun r => r.id != 5).map Rec.toRaw).take 1 :=
  get_product_recommendations_spec envW envW 3 5 1 (fun _ => .ok [])
    (Or.inr rfl) recBase [recShirt, recZShirt] rfl rfl

end RetailAPI
